import Mathlib

/-!
Verification of the chart geometry and layout engine of the
TimelineGeneration repository.

The development shallowly embeds the deterministic data-to-geometry
transformations of the repository:

* `src/types/timeline` — the `PersonData` record;
* `src/lib/chartUtils` — `getYearRange`, `getTickInterval`, `getTicks`;
* `src/components/TimelineChart.tsx` — `buildFlatLayout` (row layout) and
  the bar-width clamp;
* `src/components/viz/RadialAgeClock.tsx` — the overlap-arc layout
  (filter, rank, truncate, re-sort, radius assignment, angular mapping,
  and the 359.9° clamp of `describeArc`);
* the `YearGrid` component — the year-cell sampling and the
  square-grid sizer loop.

JavaScript numbers are modelled as `ℤ` where the source only ever holds
integers (years, cell counts, candidate sizes) and as `ℚ` where genuine
division occurs (angles, pixel coordinates, candidate cell widths).
`Math.floor`/`Math.ceil`/`Math.round` become `Int.floor`/`Int.ceil` on `ℚ`.
`Array.prototype.sort` is stable (ES2019); a stable sort invoked with a
comparator derived from a total preorder has a unique result, so it is
embedded as `List.insertionSort` with the corresponding relation.
-/

namespace TimelineGeneration

/-- `PersonData` from `src/types/timeline`.  The optional `description`
field is never read by any layout component and is omitted. -/
structure PersonData where
  name : String
  birth_year : ℤ
  death_year : Option ℤ
  category : String
  approximate : Bool
  deriving Repr, DecidableEq

/-- `CURRENT_YEAR` constant (same value in every component). -/
def CURRENT_YEAR : ℤ := 2026

/-- `p.death_year ?? currentYear` — the effective end of a lifespan. -/
def effEndAt (currentYear : ℤ) (p : PersonData) : ℤ :=
  p.death_year.getD currentYear

/-- JavaScript `Math.round` on the (always nonnegative here) operand:
round half away from zero, i.e. `⌊q + 1/2⌋` for `q ≥ 0`. -/
def jsRound (q : ℚ) : ℤ := ⌊q + 1 / 2⌋

/-! ### `src/lib/chartUtils` (year range and ticks) -/

/-- The pooled year list of `getYearRange`:
`data.flatMap(p => [p.birth_year, p.death_year ?? currentYear])`. -/
def yearsPool (currentYear : ℤ) (data : List PersonData) : List ℤ :=
  data.flatMap fun p => [p.birth_year, effEndAt currentYear p]

/-- `Math.min(...years)`; the empty pool (undefined behaviour in the
source, `Math.min()` is `Infinity`) is given the junk value 0. -/
def rawMin (currentYear : ℤ) (data : List PersonData) : ℤ :=
  match yearsPool currentYear data with
  | [] => 0
  | y :: ys => ys.foldl min y

/-- `Math.max(...years)` with the same junk value on the empty pool. -/
def rawMax (currentYear : ℤ) (data : List PersonData) : ℤ :=
  match yearsPool currentYear data with
  | [] => 0
  | y :: ys => ys.foldl max y

/-- `rawMax - rawMin || 100` — the raw span, with 100 substituted when
the difference is zero. -/
def rawRange (currentYear : ℤ) (data : List PersonData) : ℤ :=
  if rawMax currentYear data - rawMin currentYear data = 0 then 100
  else rawMax currentYear data - rawMin currentYear data

/-- `Math.max(5, Math.round(range * 0.04))`. -/
def rangePad (currentYear : ℤ) (data : List PersonData) : ℤ :=
  max 5 (jsRound ((rawRange currentYear data : ℚ) * (0.04 : ℚ)))

/-- `getYearRange` from `src/lib/chartUtils`. -/
def getYearRange (data : List PersonData) (currentYear : ℤ) : ℤ × ℤ :=
  (rawMin currentYear data - rangePad currentYear data,
   rawMax currentYear data + rangePad currentYear data)

/-- `getTickInterval` from `src/lib/chartUtils`. -/
def getTickInterval (range : ℤ) : ℤ :=
  if range > 4000 then 1000
  else if range > 2000 then 500
  else if range > 800 then 200
  else if range > 300 then 100
  else if range > 120 then 50
  else if range > 50 then 25
  else 10

/-- `Math.ceil(minYear / interval) * interval` — the first tick candidate. -/
def tickStart (minYear interval : ℤ) : ℤ :=
  ⌈(minYear : ℚ) / (interval : ℚ)⌉ * interval

/-- `getTicks` from `src/lib/chartUtils`.  The source loop
`for (let y = start; y <= maxYear; y += interval)` is written in closed
form: the loop pushes `start + interval * i` for each
`i ≤ (maxYear - start) / interval`.  For `interval ≤ 0` the source loop
would not terminate; that case is mapped to `[]`. -/
def getTicks (minYear maxYear interval : ℤ) : List ℤ :=
  if interval ≤ 0 then []
  else if maxYear < tickStart minYear interval then []
  else
    (List.range ((maxYear - tickStart minYear interval).toNat / interval.toNat + 1)).map
      fun (i : ℕ) => tickStart minYear interval + interval * (i : ℤ)

/-! ### `src/components/TimelineChart.tsx` -/

/-- The fixed 8-entry palette (`CAT_COLORS`, identical in
`TimelineChart.tsx` and `RadialAgeClock.tsx`). -/
def CAT_COLORS : List String :=
  ["#7a6e5f", "#5f6e6a", "#6e5f7a", "#7a6a5f",
   "#5f7a6e", "#6a6e5f", "#7a5f6a", "#5f6a7a"]

/-- The distinct categories of `data` in first-appearance order — the
insertion order of the `catColor` map built in the source. -/
def categoriesInOrder (data : List PersonData) : List String :=
  data.foldl (fun acc p => if p.category ∈ acc then acc else acc ++ [p.category]) []

/-- `catColor.get(category) ?? CAT_COLORS[0]`: the palette entry at the
first-appearance index of the category, cycling modulo 8. -/
def catColor (data : List PersonData) (cat : String) : String :=
  match (categoriesInOrder data).indexOf? cat with
  | some i => (CAT_COLORS.get? (i % CAT_COLORS.length)).getD "#7a6e5f"
  | none => "#7a6e5f"

def BAR_H : ℚ := 18
def BAR_GAP : ℚ := 14
def PAD_LEFT : ℚ := 48

/-- One row of the flat layout (`FlatRow` in `TimelineChart.tsx`). -/
structure FlatRow where
  person : PersonData
  barY : ℚ
  color : String
  deriving Repr, DecidableEq

/-- The comparator `(a, b) => a.birth_year - b.birth_year` as a total
preorder: `a` sorts no later than `b` iff `a.birth_year ≤ b.birth_year`. -/
def birthLE (a b : PersonData) : Prop := a.birth_year ≤ b.birth_year

instance : DecidableRel birthLE :=
  fun a b => inferInstanceAs (Decidable (a.birth_year ≤ b.birth_year))

instance : IsTotal PersonData birthLE := ⟨fun a b => le_total a.birth_year b.birth_year⟩

instance : IsTrans PersonData birthLE := ⟨fun _ _ _ h1 h2 => le_trans h1 h2⟩

/-- `sorted.map((person, i) => ({person, barY, color}))` — the indexed
map of `buildFlatLayout`, written as explicit recursion. -/
def rowsAux (data : List PersonData) (topOffset : ℚ) : ℕ → List PersonData → List FlatRow
  | _, [] => []
  | i, p :: rest =>
      { person := p,
        barY := topOffset + (i : ℚ) * (BAR_H + BAR_GAP),
        color := catColor data p.category } :: rowsAux data topOffset (i + 1) rest

/-- `buildFlatLayout` from `TimelineChart.tsx`:
`[...data].sort((a, b) => a.birth_year - b.birth_year)` (a stable sort)
followed by the indexed map to rows. -/
def buildFlatLayout (data : List PersonData) (topOffset : ℚ) : List FlatRow :=
  rowsAux data topOffset 0 (List.insertionSort birthLE data)

/-- The year-to-pixel map `xs` of `TimelineChart.tsx`:
`PAD_LEFT + ((year - minYear) / (maxYear - minYear)) * chartW`. -/
def xs (minYear maxYear : ℤ) (chartW : ℚ) (year : ℤ) : ℚ :=
  PAD_LEFT + (((year - minYear : ℤ) : ℚ) / ((maxYear - minYear : ℤ) : ℚ)) * chartW

/-- The bar-width clamp of `TimelineChart.tsx`:
`Math.max(2, solidEndX - bx)`. -/
def barW (minYear maxYear : ℤ) (chartW : ℚ) (p : PersonData) : ℚ :=
  max 2 (xs minYear maxYear chartW (effEndAt CURRENT_YEAR p)
          - xs minYear maxYear chartW p.birth_year)

/-! ### `src/components/viz/RadialAgeClock.tsx` -/

def MIN_R : ℚ := 28
def MAX_R : ℚ := 106

/-- `BASE_R = (MIN_R + MAX_R) / 2` — 67, the selected person's ring. -/
def BASE_R : ℚ := (MIN_R + MAX_R) / 2

/-- `personEnd = person.death_year ?? CURRENT_YEAR`. -/
def personEnd (p : PersonData) : ℤ := effEndAt CURRENT_YEAR p

/-- `lifespan = Math.max(personEnd - person.birth_year, 1)`. -/
def lifespanOf (p : PersonData) : ℤ := max (personEnd p - p.birth_year) 1

/-- `yearToDeg(year) = ((year - person.birth_year) / lifespan) * 360`. -/
def yearToDeg (person : PersonData) (year : ℤ) : ℚ :=
  (((year - person.birth_year : ℤ) : ℚ) / ((lifespanOf person : ℤ) : ℚ)) * 360

/-- Step-1 overlap test:
`Math.min(otherEnd, personEnd) > Math.max(p.birth_year, person.birth_year)`. -/
def overlapsB (person other : PersonData) : Bool :=
  decide (max other.birth_year person.birth_year
            < min (personEnd other) (personEnd person))

/-- `shared = Math.min(otherEnd, personEnd) - Math.max(o.birth_year, person.birth_year)`. -/
def sharedYears (person other : PersonData) : ℤ :=
  min (personEnd other) (personEnd person) - max other.birth_year person.birth_year

/-- `ageGap = person.birth_year - other.birth_year`. -/
def ageGapOf (person other : PersonData) : ℤ :=
  person.birth_year - other.birth_year

/-- Comparator `(a, b) => shareB - shareA` (descending shared years) as a
total preorder. -/
def sharedGE (person : PersonData) (a b : PersonData) : Prop :=
  sharedYears person b ≤ sharedYears person a

instance (person : PersonData) : DecidableRel (sharedGE person) :=
  fun a b => inferInstanceAs (Decidable (sharedYears person b ≤ sharedYears person a))

instance (person : PersonData) : IsTotal PersonData (sharedGE person) :=
  ⟨fun a b => (le_total (sharedYears person b) (sharedYears person a)).imp id id⟩

instance (person : PersonData) : IsTrans PersonData (sharedGE person) :=
  ⟨fun _ _ _ h1 h2 => le_trans h2 h1⟩

/-- Comparator `(a, b) => gapA - gapB` (ascending age gap) as a total
preorder. -/
def gapLE (person : PersonData) (a b : PersonData) : Prop :=
  ageGapOf person a ≤ ageGapOf person b

instance (person : PersonData) : DecidableRel (gapLE person) :=
  fun a b => inferInstanceAs (Decidable (ageGapOf person a ≤ ageGapOf person b))

instance (person : PersonData) : IsTotal PersonData (gapLE person) :=
  ⟨fun a b => le_total (ageGapOf person a) (ageGapOf person b)⟩

instance (person : PersonData) : IsTrans PersonData (gapLE person) :=
  ⟨fun _ _ _ h1 h2 => le_trans h1 h2⟩

/-- `allData.filter(p => p.name !== person.name)`. -/
def othersOf (person : PersonData) (allData : List PersonData) : List PersonData :=
  allData.filter fun p => p.name != person.name

/-- Step 1: `.filter(...)` to the people who actually overlapped. -/
def overlapFiltered (person : PersonData) (others : List PersonData) : List PersonData :=
  others.filter fun p => overlapsB person p

/-- Step 2 (first half): stable sort descending by shared years. -/
def rankedByShared (person : PersonData) (others : List PersonData) : List PersonData :=
  List.insertionSort (sharedGE person) (overlapFiltered person others)

/-- Step 2 (second half): `.slice(0, 10)`. -/
def retainedTop (person : PersonData) (others : List PersonData) : List PersonData :=
  (rankedByShared person others).take 10

/-- Step 3: stable re-sort of the retained people ascending by age gap. -/
def overlappingOf (person : PersonData) (others : List PersonData) : List PersonData :=
  List.insertionSort (gapLE person) (retainedTop person others)

/-- `assignedRadius(i)`:
`if (N <= 1) return BASE_R; return MIN_R + (i / (N - 1)) * (MAX_R - MIN_R)`. -/
def assignedRadius (N : ℕ) (i : ℕ) : ℚ :=
  if N ≤ 1 then BASE_R
  else MIN_R + ((i : ℚ) / ((N : ℚ) - 1)) * (MAX_R - MIN_R)

/-- One entry of the arc dataset (`ArcEntry` in `RadialAgeClock.tsx`).
The presentational fields `color` (palette lookup) and `len`
(`arcLengthPx`, which multiplies by the real number π) are omitted;
no layout decision reads them back. -/
structure ArcEntry where
  key : String
  p : PersonData
  r : ℚ
  startDeg : ℚ
  endDeg : ℚ
  bornDuring : Bool
  diedDuring : Bool
  ageGap : ℤ
  overlapYears : ℤ
  deriving Repr, DecidableEq

/-- The body of `overlapping.map((p, i) => ...)` building one `ArcEntry`. -/
def mkArc (person : PersonData) (N i : ℕ) (p : PersonData) : ArcEntry :=
  let overlapStart := max p.birth_year person.birth_year
  let overlapEnd := min (personEnd p) (personEnd person)
  { key := p.name
    p := p
    r := assignedRadius N i
    startDeg := yearToDeg person overlapStart
    endDeg := yearToDeg person overlapEnd
    bornDuring := decide (person.birth_year < p.birth_year)
    diedDuring :=
      match p.death_year with
      | some d => decide (d < personEnd person)
      | none => false
    ageGap := ageGapOf person p
    overlapYears := overlapEnd - overlapStart }

/-- `overlapping.map((p, i) => ...)` as explicit indexed recursion. -/
def arcsAux (person : PersonData) (N : ℕ) : ℕ → List PersonData → List ArcEntry
  | _, [] => []
  | i, p :: rest => mkArc person N i p :: arcsAux person N (i + 1) rest

/-- The full arc pipeline of `RadialAgeClock`: drop the focal person's
own record, filter/rank/truncate/re-sort, then build the arc entries
with `N = overlapping.length`. -/
def arcsFor (person : PersonData) (allData : List PersonData) : List ArcEntry :=
  let ov := overlappingOf person (othersOf person allData)
  arcsAux person ov.length 0 ov

/-- The end-angle clamp of `describeArc`:
`Math.min(endDeg, startDeg + 359.9)`. -/
def describeArcEnd (startDeg endDeg : ℚ) : ℚ :=
  min endDeg (startDeg + (359.9 : ℚ))

/-! ### The `YearGrid` component (life-events grid) -/

def EXTENSION : ℤ := 25
def MAX_SQUARES : ℤ := 100

/-- `gridEnd`: `CURRENT_YEAR` for the living, otherwise
`Math.min(deathYear + EXTENSION, CURRENT_YEAR)`. -/
def gridEnd (p : PersonData) : ℤ :=
  match p.death_year with
  | none => CURRENT_YEAR
  | some d => min (d + EXTENSION) CURRENT_YEAR

/-- `totalYears = gridEnd - birth_year + 1`. -/
def totalYears (p : PersonData) : ℤ := gridEnd p - p.birth_year + 1

/-- `step = Math.max(1, Math.ceil(totalYears / MAX_SQUARES))`. -/
def stepOf (p : PersonData) : ℤ :=
  max 1 ⌈(totalYears p : ℚ) / (MAX_SQUARES : ℚ)⌉

/-- The sampled year list
`for (let y = birth; y <= gridEnd; y += step) years.push(y)` in closed
form: `birth + step * i` for each `i ≤ (gridEnd - birth) / step`. -/
def yearsList (p : PersonData) : List ℤ :=
  if gridEnd p < p.birth_year then []
  else
    (List.range ((gridEnd p - p.birth_year).toNat / (stepOf p).toNat + 1)).map
      fun (i : ℕ) => p.birth_year + stepOf p * (i : ℤ)

/-! ### The square-grid sizer (`compute` in `YearGrid`) -/

def GRID_GAP : ℚ := 3

/-- `Math.ceil(n / c)` for positive naturals. -/
def rowsFor (n c : ℕ) : ℕ := (n + c - 1) / c

/-- One candidate of the sizer loop:
`Math.floor(Math.min((W - (c-1)*GAP) / c, (H - (rows-1)*GAP) / rows))`. -/
def szCand (W H : ℚ) (n c : ℕ) : ℤ :=
  let r := rowsFor n c
  let ws : ℚ := (W - ((c : ℚ) - 1) * GRID_GAP) / (c : ℚ)
  let hs : ℚ := (H - ((r : ℚ) - 1) * GRID_GAP) / (r : ℚ)
  ⌊min ws hs⌋

/-- The sizer loop over the remaining candidate column counts, carrying
`bestSize`; `if (sz < bestSize * 0.85) break` ends the scan early. -/
def computeGo (W H : ℚ) (n : ℕ) : List ℕ → ℤ → ℤ
  | [], best => best
  | c :: rest, best =>
      let sz := szCand W H n c
      let best1 := if best < sz then sz else best
      if (sz : ℚ) < (best1 : ℚ) * (0.85 : ℚ) then best1
      else computeGo W H n rest best1

/-- `bestSize` after the loop `for (let c = 3; c <= n; c++)`, starting
from the initial value 12. -/
def computeBest (W H : ℚ) (n : ℕ) : ℤ :=
  computeGo W H n (List.range' 3 (n - 2)) 12

/-- `Math.max(12, Math.min(bestSize, 56))` — the chosen square size. -/
def computeSize (W H : ℚ) (n : ℕ) : ℤ :=
  max 12 (min (computeBest W H n) 56)

/-- The two fit inequalities of §4.6:
`c * size + (c-1)*g ≤ W` and `ceil(n/c) * size + (ceil(n/c)-1)*g ≤ H`. -/
def fitsGrid (n c : ℕ) (s : ℤ) (W H : ℚ) : Prop :=
  (c : ℚ) * (s : ℚ) + ((c : ℚ) - 1) * GRID_GAP ≤ W ∧
  (rowsFor n c : ℚ) * (s : ℚ) + ((rowsFor n c : ℚ) - 1) * GRID_GAP ≤ H

/-- Some positive column count makes the chosen size fit. -/
def fitsSome (n : ℕ) (s : ℤ) (W H : ℚ) : Prop :=
  ∃ c : ℕ, 1 ≤ c ∧ fitsGrid n c s W H

/-! ### Concrete records used to instantiate theorems -/

def adaP : PersonData := ⟨"Ada", 1900, some 1980, "sci", false⟩

def bobP : PersonData := ⟨"Bob", 1850, some 1920, "art", false⟩

def cleP : PersonData := ⟨"Cle", 1930, none, "sci", false⟩

/-- A corrupt record: death year before birth year. -/
def badP : PersonData := ⟨"Bad", 1950, some 1900, "misc", false⟩

/-! ## Helper lemmas -/

lemma foldl_min_le_init (l : List ℤ) (a : ℤ) : l.foldl min a ≤ a := by
  induction l generalizing a with
  | nil => simp
  | cons x xs ih => exact le_trans (ih (min a x)) (min_le_left a x)

lemma foldl_min_le_mem {l : List ℤ} {x : ℤ} (hx : x ∈ l) (a : ℤ) :
    l.foldl min a ≤ x := by
  induction l generalizing a with
  | nil => cases hx
  | cons y ys ih =>
    rcases List.mem_cons.mp hx with h | h
    · subst h
      exact le_trans (foldl_min_le_init ys (min a x)) (min_le_right a x)
    · exact ih h (min a y)

lemma le_foldl_max_init (l : List ℤ) (a : ℤ) : a ≤ l.foldl max a := by
  induction l generalizing a with
  | nil => simp
  | cons x xs ih => exact le_trans (le_max_left a x) (ih (max a x))

lemma le_foldl_max_mem {l : List ℤ} {x : ℤ} (hx : x ∈ l) (a : ℤ) :
    x ≤ l.foldl max a := by
  induction l generalizing a with
  | nil => cases hx
  | cons y ys ih =>
    rcases List.mem_cons.mp hx with h | h
    · subst h
      exact le_trans (le_max_right a x) (le_foldl_max_init ys (max a x))
    · exact ih h (max a y)

lemma rawMin_le {currentYear : ℤ} {data : List PersonData} {x : ℤ}
    (hx : x ∈ yearsPool currentYear data) : rawMin currentYear data ≤ x := by
  unfold rawMin
  rcases hP : yearsPool currentYear data with _ | ⟨y, ys⟩
  · rw [hP] at hx; cases hx
  · rw [hP] at hx
    rcases List.mem_cons.mp hx with h | h
    · subst h; exact foldl_min_le_init ys x
    · exact foldl_min_le_mem h y

lemma le_rawMax {currentYear : ℤ} {data : List PersonData} {x : ℤ}
    (hx : x ∈ yearsPool currentYear data) : x ≤ rawMax currentYear data := by
  unfold rawMax
  rcases hP : yearsPool currentYear data with _ | ⟨y, ys⟩
  · rw [hP] at hx; cases hx
  · rw [hP] at hx
    rcases List.mem_cons.mp hx with h | h
    · subst h; exact le_foldl_max_init ys x
    · exact le_foldl_max_mem h y

lemma birth_mem_yearsPool {currentYear : ℤ} {data : List PersonData} {p : PersonData}
    (hp : p ∈ data) : p.birth_year ∈ yearsPool currentYear data :=
  List.mem_flatMap.mpr ⟨p, hp, by simp⟩

lemma effEnd_mem_yearsPool {currentYear : ℤ} {data : List PersonData} {p : PersonData}
    (hp : p ∈ data) : effEndAt currentYear p ∈ yearsPool currentYear data :=
  List.mem_flatMap.mpr ⟨p, hp, by simp⟩

lemma rangePad_pos (currentYear : ℤ) (data : List PersonData) :
    0 < rangePad currentYear data :=
  lt_of_lt_of_le (by norm_num) (le_max_left 5 _)

/-! ## C5 — year-range computation -/

/-- **C5.**  For every non-empty person list and reference current year,
`getYearRange` returns exactly `(rawMin - pad, rawMax + pad)` with
`pad = max(5, round(rawRange * 0.04))` (`rawRange` substituting 100 for a
zero span); consequently `minYear < maxYear` and every person's birth
and effective-death year lies within `[minYear, maxYear]`. -/
theorem c5_year_range (data : List PersonData) (currentYear : ℤ) (p : PersonData)
    (hne : data ≠ []) (hp : p ∈ data) :
    getYearRange data currentYear =
      (rawMin currentYear data - rangePad currentYear data,
       rawMax currentYear data + rangePad currentYear data) ∧
    (getYearRange data currentYear).1 < (getYearRange data currentYear).2 ∧
    (getYearRange data currentYear).1 ≤ p.birth_year ∧
    p.birth_year ≤ (getYearRange data currentYear).2 ∧
    (getYearRange data currentYear).1 ≤ effEndAt currentYear p ∧
    effEndAt currentYear p ≤ (getYearRange data currentYear).2 := by
  have hb1 : rawMin currentYear data ≤ p.birth_year := rawMin_le (birth_mem_yearsPool hp)
  have hb2 : p.birth_year ≤ rawMax currentYear data := le_rawMax (birth_mem_yearsPool hp)
  have he1 : rawMin currentYear data ≤ effEndAt currentYear p :=
    rawMin_le (effEnd_mem_yearsPool hp)
  have he2 : effEndAt currentYear p ≤ rawMax currentYear data :=
    le_rawMax (effEnd_mem_yearsPool hp)
  have hpad := rangePad_pos currentYear data
  refine ⟨rfl, ?_, ?_, ?_, ?_, ?_⟩ <;> simp only [getYearRange] <;> omega

/-- **C5 witness** at the spec's end-to-end example 1: two people
(1900–1955 and 1920–living), current year 2026. -/
theorem c5_year_range_witness :
    getYearRange
        [⟨"a", 1900, some 1955, "x", false⟩, ⟨"b", 1920, none, "x", false⟩] 2026 =
      (rawMin 2026 [⟨"a", 1900, some 1955, "x", false⟩, ⟨"b", 1920, none, "x", false⟩]
        - rangePad 2026 [⟨"a", 1900, some 1955, "x", false⟩, ⟨"b", 1920, none, "x", false⟩],
       rawMax 2026 [⟨"a", 1900, some 1955, "x", false⟩, ⟨"b", 1920, none, "x", false⟩]
        + rangePad 2026 [⟨"a", 1900, some 1955, "x", false⟩, ⟨"b", 1920, none, "x", false⟩]) ∧
    (getYearRange
        [⟨"a", 1900, some 1955, "x", false⟩, ⟨"b", 1920, none, "x", false⟩] 2026).1 <
      (getYearRange
        [⟨"a", 1900, some 1955, "x", false⟩, ⟨"b", 1920, none, "x", false⟩] 2026).2 ∧
    (getYearRange
        [⟨"a", 1900, some 1955, "x", false⟩, ⟨"b", 1920, none, "x", false⟩] 2026).1 ≤
      (1900 : ℤ) ∧
    (1900 : ℤ) ≤
      (getYearRange
        [⟨"a", 1900, some 1955, "x", false⟩, ⟨"b", 1920, none, "x", false⟩] 2026).2 ∧
    (getYearRange
        [⟨"a", 1900, some 1955, "x", false⟩, ⟨"b", 1920, none, "x", false⟩] 2026).1 ≤
      effEndAt 2026 ⟨"a", 1900, some 1955, "x", false⟩ ∧
    effEndAt 2026 ⟨"a", 1900, some 1955, "x", false⟩ ≤
      (getYearRange
        [⟨"a", 1900, some 1955, "x", false⟩, ⟨"b", 1920, none, "x", false⟩] 2026).2 :=
  c5_year_range
    [⟨"a", 1900, some 1955, "x", false⟩, ⟨"b", 1920, none, "x", false⟩] 2026
    ⟨"a", 1900, some 1955, "x", false⟩ (by decide) (by decide)

/-! ## C6 — tick enumeration -/

lemma tickStart_dvd (minYear interval : ℤ) : interval ∣ tickStart minYear interval := by
  unfold tickStart
  exact dvd_mul_left _ _

lemma tickStart_ge (minYear interval : ℤ) (hI : 0 < interval) :
    minYear ≤ tickStart minYear interval := by
  have hQ : (0 : ℚ) < (interval : ℚ) := by exact_mod_cast hI
  have h1 : ((minYear : ℚ) / (interval : ℚ)) ≤
      (⌈(minYear : ℚ) / (interval : ℚ)⌉ : ℚ) := Int.le_ceil _
  have h2 : (minYear : ℚ) ≤ (⌈(minYear : ℚ) / (interval : ℚ)⌉ : ℚ) * (interval : ℚ) :=
    (div_le_iff₀ hQ).mp h1
  have h3 : (minYear : ℚ) ≤ ((tickStart minYear interval : ℤ) : ℚ) := by
    unfold tickStart
    push_cast
    exact h2
  exact_mod_cast h3

lemma tickStart_least {minYear interval m : ℤ} (hI : 0 < interval)
    (hdvd : interval ∣ m) (hm : minYear ≤ m) : tickStart minYear interval ≤ m := by
  obtain ⟨q, rfl⟩ := hdvd
  have hQ : (0 : ℚ) < (interval : ℚ) := by exact_mod_cast hI
  have h1 : (minYear : ℚ) ≤ (interval : ℚ) * (q : ℚ) := by exact_mod_cast hm
  have h2 : (minYear : ℚ) / (interval : ℚ) ≤ (q : ℚ) := by
    rw [div_le_iff₀ hQ]
    linarith
  have h3 : ⌈(minYear : ℚ) / (interval : ℚ)⌉ ≤ q := Int.ceil_le.mpr (by push_cast; exact h2)
  have h4 : ⌈(minYear : ℚ) / (interval : ℚ)⌉ * interval ≤ q * interval :=
    mul_le_mul_of_nonneg_right h3 (by omega)
  unfold tickStart
  linarith [mul_comm q interval]

lemma getTicks_of_lt (minYear maxYear interval : ℤ) (hI : 0 < interval)
    (hlt : maxYear < tickStart minYear interval) : getTicks minYear maxYear interval = [] := by
  unfold getTicks
  rw [if_neg (by omega), if_pos hlt]

lemma getTicks_of_le (minYear maxYear interval : ℤ) (hI : 0 < interval)
    (hle : tickStart minYear interval ≤ maxYear) :
    getTicks minYear maxYear interval =
      (List.range ((maxYear - tickStart minYear interval).toNat / interval.toNat + 1)).map
        (fun (i : ℕ) => tickStart minYear interval + interval * (i : ℤ)) := by
  unfold getTicks
  rw [if_neg (by omega), if_neg (by omega)]

/-- **C6 counterexample.**  At `(minYear, maxYear, interval) = (0, 25, 10)`
the output is `[0, 10, 20]`: the first tick equals `minYear`, so it does
not lie *strictly* inside the range. -/
theorem c6_tick_strict_counterexample :
    (0 : ℤ) ∈ getTicks 0 25 10 ∧ ¬ ((0 : ℤ) < 0 ∧ (0 : ℤ) < 25) := by
  have h1 : tickStart 0 10 = 0 := by
    unfold tickStart
    norm_num
  have h2 : getTicks 0 25 10 = [0, 10, 20] := by
    unfold getTicks
    rw [h1]
    rw [if_neg (by norm_num), if_neg (by norm_num)]
    decide
  rw [h2]
  exact ⟨by decide, by decide⟩

/-- **C6 (amended).**  For `interval > 0` the tick list is ascending
with consecutive ticks differing by exactly `interval`, every tick is a
multiple of `interval` and lies in the *closed* interval
`[minYear, maxYear]`, the first tick is `ceil(minYear/interval) * interval`,
and the list is empty exactly when no multiple of `interval` falls in
the range.  (Amended from the claim: a tick can equal `minYear` or
`maxYear`, so containment is closed, not strict.) -/
theorem c6_ticks_amended (minYear maxYear interval : ℤ) (hI : 0 < interval) :
    List.Chain' (fun a b => b = a + interval) (getTicks minYear maxYear interval) ∧
    List.Pairwise (· < ·) (getTicks minYear maxYear interval) ∧
    ((getTicks minYear maxYear interval).all fun t =>
        decide (interval ∣ t) && decide (minYear ≤ t) && decide (t ≤ maxYear)) = true ∧
    (getTicks minYear maxYear interval).head? =
      (if tickStart minYear interval ≤ maxYear then some (tickStart minYear interval)
       else none) ∧
    (getTicks minYear maxYear interval = [] ↔
      ¬ ∃ m : ℤ, interval ∣ m ∧ minYear ≤ m ∧ m ≤ maxYear) := by
  by_cases hc : maxYear < tickStart minYear interval
  · have hE := getTicks_of_lt minYear maxYear interval hI hc
    rw [hE]
    refine ⟨List.chain'_nil, List.Pairwise.nil, rfl, by rw [if_neg (by omega)]; rfl, ?_⟩
    simp only [true_iff]
    rintro ⟨m, hdvd, h1, h2⟩
    have := tickStart_least hI hdvd h1
    omega
  · have hle : tickStart minYear interval ≤ maxYear := by omega
    have hG := getTicks_of_le minYear maxYear interval hI hle
    rw [hG]
    have hch : List.Chain' (fun a b : ℤ => b = a + interval)
        ((List.range ((maxYear - tickStart minYear interval).toNat / interval.toNat + 1)).map
          (fun (i : ℕ) => tickStart minYear interval + interval * (i : ℤ))) := by
      rw [List.chain'_map]
      refine (List.chain'_range_succ _ _).mpr ?_
      intro m _
      push_cast
      ring
    refine ⟨hch, ?_, ?_, ?_, ?_⟩
    · have hch2 := hch.imp (fun {a b} hab => by omega : ∀ {a b : ℤ}, b = a + interval → a < b)
      exact List.chain'_iff_pairwise.mp hch2
    · rw [List.all_eq_true]
      intro t ht
      obtain ⟨i, hi, rfl⟩ := List.mem_map.mp ht
      have hiK : i < (maxYear - tickStart minYear interval).toNat / interval.toNat + 1 :=
        List.mem_range.mp hi
      simp only [Bool.and_eq_true, decide_eq_true_eq]
      have hmul : 0 ≤ interval * (i : ℤ) := mul_nonneg (by omega) (by positivity)
      have hts := tickStart_ge minYear interval hI
      refine ⟨⟨dvd_add (tickStart_dvd minYear interval) (dvd_mul_right interval _), by omega⟩, ?_⟩
      have hN : i * interval.toNat ≤ (maxYear - tickStart minYear interval).toNat :=
        (Nat.le_div_iff_mul_le (by omega)).mp (by omega)
      have hN2 : ((i * interval.toNat : ℕ) : ℤ) ≤
          (((maxYear - tickStart minYear interval).toNat : ℕ) : ℤ) := by exact_mod_cast hN
      have hiv : ((interval.toNat : ℕ) : ℤ) = interval := Int.toNat_of_nonneg (by omega)
      have hD : (((maxYear - tickStart minYear interval).toNat : ℕ) : ℤ) =
          maxYear - tickStart minYear interval := Int.toNat_of_nonneg (by omega)
      rw [hD] at hN2
      push_cast at hN2
      rw [hiv] at hN2
      linarith [mul_comm (i : ℤ) interval]
    · rw [if_pos hle, List.head?_map, List.range_succ_eq_map]
      simp
    · have hne : ((List.range ((maxYear - tickStart minYear interval).toNat / interval.toNat
          + 1)).map
            (fun (i : ℕ) => tickStart minYear interval + interval * (i : ℤ))) ≠ [] := by
        simp
      refine iff_of_false hne (not_not_intro ?_)
      exact ⟨tickStart minYear interval, tickStart_dvd minYear interval,
        tickStart_ge minYear interval hI, hle⟩

/-- **C6 witness** at the spec's end-to-end example 2:
`(minYear, maxYear, interval) = (1895, 2031, 50)`, ticks `1900, 1950, 2000`. -/
theorem c6_ticks_amended_witness :
    List.Chain' (fun a b => b = a + 50) (getTicks 1895 2031 50) ∧
    List.Pairwise (· < ·) (getTicks 1895 2031 50) ∧
    ((getTicks 1895 2031 50).all fun t =>
        decide ((50 : ℤ) ∣ t) && decide ((1895 : ℤ) ≤ t) && decide (t ≤ (2031 : ℤ))) = true ∧
    (getTicks 1895 2031 50).head? =
      (if tickStart 1895 50 ≤ 2031 then some (tickStart 1895 50) else none) ∧
    (getTicks 1895 2031 50 = [] ↔
      ¬ ∃ m : ℤ, (50 : ℤ) ∣ m ∧ (1895 : ℤ) ≤ m ∧ m ≤ 2031) :=
  c6_ticks_amended 1895 2031 50 (by decide)

/-! ## C7 — row layout -/

lemma rowsAux_length (data : List PersonData) (off : ℚ) :
    ∀ (i : ℕ) (l : List PersonData), (rowsAux data off i l).length = l.length := by
  intro i l
  induction l generalizing i with
  | nil => rfl
  | cons p rest ih => simp [rowsAux, ih]

lemma rowsAux_map_person (data : List PersonData) (off : ℚ) :
    ∀ (i : ℕ) (l : List PersonData),
      (rowsAux data off i l).map (fun row => row.person) = l := by
  intro i l
  induction l generalizing i with
  | nil => rfl
  | cons p rest ih => simp [rowsAux, ih]

lemma rowsAux_get (data : List PersonData) (off : ℚ) :
    ∀ (l : List PersonData) (i j : ℕ) (h1 : j < (rowsAux data off i l).length)
      (h2 : j < l.length),
      (rowsAux data off i l).get ⟨j, h1⟩ =
        { person := l.get ⟨j, h2⟩,
          barY := off + ((i + j : ℕ) : ℚ) * (BAR_H + BAR_GAP),
          color := catColor data (l.get ⟨j, h2⟩).category } := by
  intro l
  induction l with
  | nil => intro i j h1 h2; cases h2
  | cons p rest ih =>
    intro i j h1 h2
    cases j with
    | zero => simp [rowsAux]
    | succ k =>
      have h1t : k < (rowsAux data off (i + 1) rest).length := by
        rw [rowsAux_length]
        exact Nat.lt_of_succ_lt_succ h2
      have h2t : k < rest.length := Nat.lt_of_succ_lt_succ h2
      have hstep : (rowsAux data off i (p :: rest)).get ⟨k + 1, h1⟩ =
          (rowsAux data off (i + 1) rest).get ⟨k, h1t⟩ := rfl
      rw [hstep, ih (i + 1) k h1t h2t]
      have harith : ((i + 1 + k : ℕ) : ℚ) = ((i + (k + 1) : ℕ) : ℚ) := by
        push_cast
        ring
      simp [harith]

lemma rowsAux_pairwise (data : List PersonData) (off : ℚ) :
    ∀ (l : List PersonData) (i : ℕ), l.Pairwise birthLE →
      (rowsAux data off i l).Pairwise
        (fun a b => a.person.birth_year ≤ b.person.birth_year) := by
  intro l
  induction l with
  | nil => intro i _; exact List.Pairwise.nil
  | cons p rest ih =>
    intro i hp
    rcases List.pairwise_cons.mp hp with ⟨hhead, htail⟩
    refine List.Pairwise.cons ?_ (ih (i + 1) htail)
    intro row hrow
    have hmem : row.person ∈ rest := by
      rw [← rowsAux_map_person data off (i + 1) rest]
      exact List.mem_map_of_mem _ hrow
    exact hhead row.person hmem

lemma filter_birth_insertionSort (data : List PersonData) (b : ℤ) :
    (List.insertionSort birthLE data).filter (fun q => q.birth_year == b) =
      data.filter (fun q => q.birth_year == b) := by
  have hpair : (data.filter (fun q => q.birth_year == b)).Pairwise birthLE := by
    refine List.pairwise_of_forall_mem_list ?_
    intro x hx y hy
    have hx2 := (List.mem_filter.mp hx).2
    have hy2 := (List.mem_filter.mp hy).2
    simp only [beq_iff_eq] at hx2 hy2
    unfold birthLE
    omega
  have hsub : (data.filter (fun q => q.birth_year == b)).Sublist
      (List.insertionSort birthLE data) :=
    List.sublist_insertionSort hpair (List.filter_sublist data)
  have hsub2 := hsub.filter (fun q => q.birth_year == b)
  have hff : (data.filter (fun q => q.birth_year == b)).filter
      (fun q => q.birth_year == b) = data.filter (fun q => q.birth_year == b) := by
    rw [List.filter_filter]
    exact List.filter_congr (fun x _ => Bool.and_self _)
  rw [hff] at hsub2
  have hperm := (List.perm_insertionSort birthLE data).filter (fun q => q.birth_year == b)
  exact (hsub2.eq_of_length hperm.length_eq.symm).symm

/-- **C7.**  The row layout returns exactly one row per input person; the
rows are the input stably sorted ascending by `birth_year` (ties keep the
input's relative order — stated as filter-equality per birth year); and
the `i`-th row's vertical offset is `origin + i * (rowHeight + gap)`. -/
theorem c7_row_layout (data : List PersonData) (off : ℚ) :
    (buildFlatLayout data off).length = data.length ∧
    (buildFlatLayout data off).map (fun row => row.person) =
      List.insertionSort birthLE data ∧
    (buildFlatLayout data off).Pairwise
      (fun a b => a.person.birth_year ≤ b.person.birth_year) ∧
    (∀ b : ℤ,
      ((buildFlatLayout data off).map (fun row => row.person)).filter
          (fun q => q.birth_year == b) =
        data.filter (fun q => q.birth_year == b)) ∧
    (∀ (i : ℕ) (h : i < (buildFlatLayout data off).length),
      ((buildFlatLayout data off).get ⟨i, h⟩).barY =
        off + (i : ℚ) * (BAR_H + BAR_GAP)) := by
  refine ⟨?_, ?_, ?_, ?_, ?_⟩
  · rw [buildFlatLayout, rowsAux_length, List.length_insertionSort]
  · exact rowsAux_map_person data off 0 _
  · exact rowsAux_pairwise data off _ 0 (List.sorted_insertionSort birthLE data)
  · intro b
    rw [buildFlatLayout, rowsAux_map_person data off 0]
    exact filter_birth_insertionSort data b
  · intro i h
    have h2 : i < (List.insertionSort birthLE data).length := by
      rw [← rowsAux_length data off 0]
      exact h
    simp only [buildFlatLayout] at h ⊢
    rw [rowsAux_get data off _ 0 i h h2]
    simp

/-! ## Arc-layout lemmas (C1, C2, C3, C8, C10) -/

lemma arcsAux_length (person : PersonData) (N : ℕ) :
    ∀ (i : ℕ) (l : List PersonData), (arcsAux person N i l).length = l.length := by
  intro i l
  induction l generalizing i with
  | nil => rfl
  | cons p rest ih => simp [arcsAux, ih]

lemma arcsAux_map_p (person : PersonData) (N : ℕ) :
    ∀ (i : ℕ) (l : List PersonData),
      (arcsAux person N i l).map (fun a => a.p) = l := by
  intro i l
  induction l generalizing i with
  | nil => rfl
  | cons p rest ih => simp [arcsAux, mkArc, ih]

lemma mem_arcsAux {person : PersonData} {N : ℕ} :
    ∀ {i : ℕ} {l : List PersonData} {a : ArcEntry}, a ∈ arcsAux person N i l →
      ∃ (j : ℕ) (p : PersonData), p ∈ l ∧ a = mkArc person N j p := by
  intro i l
  induction l generalizing i with
  | nil => intro a ha; cases ha
  | cons p rest ih =>
    intro a ha
    rcases List.mem_cons.mp ha with h | h
    · exact ⟨i, p, List.mem_cons_self p rest, h⟩
    · obtain ⟨j, q, hq, rfl⟩ := ih h
      exact ⟨j, q, List.mem_cons_of_mem p hq, rfl⟩

lemma arcsAux_get (person : PersonData) (N : ℕ) :
    ∀ (l : List PersonData) (i j : ℕ) (h1 : j < (arcsAux person N i l).length)
      (h2 : j < l.length),
      (arcsAux person N i l).get ⟨j, h1⟩ = mkArc person N (i + j) (l.get ⟨j, h2⟩) := by
  intro l
  induction l with
  | nil => intro i j h1 h2; cases h2
  | cons p rest ih =>
    intro i j h1 h2
    cases j with
    | zero => simp [arcsAux]
    | succ k =>
      have h1t : k < (arcsAux person N (i + 1) rest).length := by
        rw [arcsAux_length]
        exact Nat.lt_of_succ_lt_succ h2
      have h2t : k < rest.length := Nat.lt_of_succ_lt_succ h2
      have hstep : (arcsAux person N i (p :: rest)).get ⟨k + 1, h1⟩ =
          (arcsAux person N (i + 1) rest).get ⟨k, h1t⟩ := rfl
      rw [hstep, ih (i + 1) k h1t h2t]
      congr 1
      omega

lemma arcsAux_pairwise_ageGap (person : PersonData) (N : ℕ) :
    ∀ (l : List PersonData) (i : ℕ), l.Pairwise (gapLE person) →
      (arcsAux person N i l).Pairwise (fun a b => a.ageGap ≤ b.ageGap) := by
  intro l
  induction l with
  | nil => intro i _; exact List.Pairwise.nil
  | cons p rest ih =>
    intro i hp
    rcases List.pairwise_cons.mp hp with ⟨hhead, htail⟩
    refine List.Pairwise.cons ?_ (ih (i + 1) htail)
    intro b hb
    obtain ⟨j, q, hq, rfl⟩ := mem_arcsAux hb
    exact hhead q hq

lemma mem_overlappingOf {person : PersonData} {os : List PersonData} {p : PersonData}
    (h : p ∈ overlappingOf person os) : p ∈ os ∧ overlapsB person p = true := by
  have h1 : p ∈ retainedTop person os := (List.mem_insertionSort _).mp h
  have h2 : p ∈ rankedByShared person os := List.take_subset _ _ h1
  have h3 : p ∈ overlapFiltered person os := (List.mem_insertionSort _).mp h2
  have h4 := List.mem_filter.mp h3
  exact ⟨h4.1, h4.2⟩

lemma overlap_strict {person p : PersonData} (h : overlapsB person p = true) :
    max p.birth_year person.birth_year < min (personEnd p) (personEnd person) := by
  simpa [overlapsB] using h

lemma lifespan_pos (p : PersonData) : 0 < lifespanOf p :=
  lt_of_lt_of_le one_pos (le_max_right _ 1)

lemma yearToDeg_sub (person : PersonData) (a b : ℤ) :
    yearToDeg person b - yearToDeg person a =
      (((b - a : ℤ) : ℚ) / ((lifespanOf person : ℤ) : ℚ)) * 360 := by
  have hL : ((lifespanOf person : ℤ) : ℚ) ≠ 0 := by
    have := lifespan_pos person
    exact_mod_cast (by omega : lifespanOf person ≠ 0)
  unfold yearToDeg
  field_simp
  ring

/-! ## C1 — arc angle bounds -/

/-- **C1.**  For a focal person whose death year (when present) is not
before their birth year, every produced `ArcEntry` has
`0 < endDeg - startDeg ≤ 360`, and the end angle drawn by `describeArc`
never exceeds the start angle plus 359.9°. -/
theorem c1_arc_angle_bounds (person : PersonData) (allData : List PersonData) (i : ℕ)
    (h : i < (arcsFor person allData).length)
    (hd : ∀ dy : ℤ, person.death_year = some dy → person.birth_year ≤ dy) :
    0 < ((arcsFor person allData).get ⟨i, h⟩).endDeg
          - ((arcsFor person allData).get ⟨i, h⟩).startDeg ∧
    ((arcsFor person allData).get ⟨i, h⟩).endDeg
          - ((arcsFor person allData).get ⟨i, h⟩).startDeg ≤ 360 ∧
    describeArcEnd ((arcsFor person allData).get ⟨i, h⟩).startDeg
        ((arcsFor person allData).get ⟨i, h⟩).endDeg
      ≤ ((arcsFor person allData).get ⟨i, h⟩).startDeg + (359.9 : ℚ) := by
  simp only [arcsFor] at h ⊢
  have h2 : i < (overlappingOf person (othersOf person allData)).length := by
    rw [← arcsAux_length person (overlappingOf person (othersOf person allData)).length 0]
    exact h
  rw [arcsAux_get person _ _ 0 i h h2]
  have hmem : (overlappingOf person (othersOf person allData)).get ⟨i, h2⟩ ∈
      overlappingOf person (othersOf person allData) := List.get_mem _ _ h2
  have hovl := (mem_overlappingOf hmem).2
  have hb := overlap_strict hovl
  simp only [mkArc]
  have hL := lifespan_pos person
  have hLQ : (0 : ℚ) < ((lifespanOf person : ℤ) : ℚ) := by exact_mod_cast hL
  set p := (overlappingOf person (othersOf person allData)).get ⟨i, h2⟩
  have hsub := yearToDeg_sub person (max p.birth_year person.birth_year)
    (min (personEnd p) (personEnd person))
  have hpos : 0 < min (personEnd p) (personEnd person)
      - max p.birth_year person.birth_year := by omega
  have hle : min (personEnd p) (personEnd person)
      - max p.birth_year person.birth_year ≤ lifespanOf person := by
    have h5 : min (personEnd p) (personEnd person) ≤ personEnd person := min_le_right _ _
    have h6 : person.birth_year ≤ max p.birth_year person.birth_year := le_max_right _ _
    have h7 : personEnd person - person.birth_year ≤ lifespanOf person := le_max_left _ _
    omega
  refine ⟨?_, ?_, ?_⟩
  · rw [hsub]
    have hQ : (0 : ℚ) < ((min (personEnd p) (personEnd person)
        - max p.birth_year person.birth_year : ℤ) : ℚ) := by exact_mod_cast hpos
    have := div_pos hQ hLQ
    nlinarith
  · rw [hsub]
    have hdiv : ((min (personEnd p) (personEnd person)
          - max p.birth_year person.birth_year : ℤ) : ℚ)
        / ((lifespanOf person : ℤ) : ℚ) ≤ 1 :=
      (div_le_one hLQ).mpr (by exact_mod_cast hle)
    nlinarith
  · unfold describeArcEnd
    exact min_le_right _ _

/-! ## C2 — ranking, truncation, and output order -/

/-- **C2.**  The overlap-arc layout retains `min(k, 10)` entries, where
`k` is the number of overlapping people; the retained people are exactly
the first ten of the overlap-filtered roster stably sorted descending by
shared years (stated via the permutation to `retainedTop` together with
sortedness and permutation facts about the ranking); and the final
output is ordered ascending by `ageGap`. -/
theorem c2_ranking_truncation_order (person : PersonData) (allData : List PersonData) :
    (arcsFor person allData).length =
      min (overlapFiltered person (othersOf person allData)).length 10 ∧
    ((arcsFor person allData).map fun a => a.p).Perm
      (retainedTop person (othersOf person allData)) ∧
    (rankedByShared person (othersOf person allData)).Sorted (sharedGE person) ∧
    (rankedByShared person (othersOf person allData)).Perm
      (overlapFiltered person (othersOf person allData)) ∧
    (arcsFor person allData).Pairwise fun a b => a.ageGap ≤ b.ageGap := by
  refine ⟨?_, ?_, ?_, ?_, ?_⟩
  · simp only [arcsFor]
    rw [arcsAux_length]
    simp only [overlappingOf, List.length_insertionSort, retainedTop, List.length_take,
      rankedByShared, List.length_insertionSort]
    exact min_comm _ _
  · simp only [arcsFor]
    rw [arcsAux_map_p]
    exact List.perm_insertionSort _ _
  · exact List.sorted_insertionSort _ _
  · exact List.perm_insertionSort _ _
  · simp only [arcsFor]
    exact arcsAux_pairwise_ageGap person _ _ 0
      (List.sorted_insertionSort (gapLE person) _)

/-! ## C3 — radius assignment -/

/-- **C3.**  With `N` retained entries in ageGap-ascending order, the
`i`-th entry's radius is `minR + (i/(N-1)) * (maxR - minR)` for `N > 1`
and the midpoint `(minR + maxR)/2` for `N = 1`, with `minR = 28`,
`maxR = 106`, midpoint 67. -/
theorem c3_radius_assignment (person : PersonData) (allData : List PersonData) (i : ℕ)
    (h : i < (arcsFor person allData).length) :
    MIN_R = 28 ∧ MAX_R = 106 ∧ BASE_R = 67 ∧
    ((arcsFor person allData).get ⟨i, h⟩).r =
      (if (arcsFor person allData).length = 1 then ((28 : ℚ) + 106) / 2
       else 28 + ((i : ℚ) / (((arcsFor person allData).length : ℚ) - 1)) * (106 - 28)) := by
  refine ⟨rfl, rfl, by norm_num [BASE_R, MIN_R, MAX_R], ?_⟩
  simp only [arcsFor] at h ⊢
  have h2 : i < (overlappingOf person (othersOf person allData)).length := by
    rw [← arcsAux_length person (overlappingOf person (othersOf person allData)).length 0]
    exact h
  rw [arcsAux_get person _ _ 0 i h h2]
  simp only [mkArc]
  rw [arcsAux_length]
  rw [assignedRadius]
  by_cases hN1 : (overlappingOf person (othersOf person allData)).length = 1
  · rw [if_pos (by omega), if_pos hN1]
    norm_num [BASE_R, MIN_R, MAX_R]
  · have hgt : ¬ ((overlappingOf person (othersOf person allData)).length ≤ 1) := by omega
    rw [if_neg hgt, if_neg hN1]
    norm_num [MIN_R, MAX_R]

/-! ## C8 — negative lifespans are clamped / filtered out -/

/-- **C8.**  A record with `deathYear < birthYear` cannot produce bad
geometry: the main chart's bar width is always clamped to at least 2
pixels; no arc entry of any focal person is ever built from such a
record; and with such a record as the focal person the arc list is
empty. -/
theorem c8_negative_span_safety (minYear maxYear : ℤ) (chartW : ℚ)
    (q person : PersonData) (allData : List PersonData) (d : ℤ)
    (hd : q.death_year = some d) (hlt : d < q.birth_year) :
    2 ≤ barW minYear maxYear chartW q ∧
    ((arcsFor person allData).all fun a => a.p != q) = true ∧
    arcsFor q allData = [] := by
  have hqEnd : personEnd q = d := by simp [personEnd, effEndAt, hd]
  refine ⟨le_max_left 2 _, ?_, ?_⟩
  · rw [List.all_eq_true]
    intro a ha
    simp only [arcsFor] at ha
    obtain ⟨j, p, hp, rfl⟩ := mem_arcsAux ha
    have hb := overlap_strict (mem_overlappingOf hp).2
    rw [bne_iff_ne]
    simp only [mkArc]
    intro hEq
    rw [hEq] at hb
    have h2 : min (personEnd q) (personEnd person) ≤ personEnd q := min_le_left _ _
    have h3 : q.birth_year ≤ max q.birth_year person.birth_year := le_max_left _ _
    omega
  · have hfil : overlapFiltered q (othersOf q allData) = [] := by
      unfold overlapFiltered
      rw [List.filter_eq_nil_iff]
      intro p _ hov
      have hb := overlap_strict hov
      have h2 : min (personEnd p) (personEnd q) ≤ personEnd q := min_le_right _ _
      have h3 : q.birth_year ≤ max p.birth_year q.birth_year := le_max_right _ _
      omega
    unfold arcsFor overlappingOf retainedTop rankedByShared
    rw [hfil]
    rfl

/-! ## C10 — the focal person is never their own contemporary -/

/-- **C10.**  Records whose name equals the focal person's name are
removed before the overlap filter runs, and consequently no `ArcEntry`
in the output carries the focal person's name. -/
theorem c10_no_self_arc (person : PersonData) (allData : List PersonData) :
    ((arcsFor person allData).all fun a => a.key != person.name) = true ∧
    ((othersOf person allData).all fun p => p.name != person.name) = true := by
  constructor
  · rw [List.all_eq_true]
    intro a ha
    simp only [arcsFor] at ha
    obtain ⟨j, p, hp, rfl⟩ := mem_arcsAux ha
    have hmem := (mem_overlappingOf hp).1
    unfold othersOf at hmem
    have := (List.mem_filter.mp hmem).2
    simpa [mkArc] using this
  · rw [List.all_eq_true]
    intro p hp
    unfold othersOf at hp
    exact (List.mem_filter.mp hp).2

/-! ## C4 — square-grid sizer -/

lemma computeGo_ge (W H : ℚ) (n : ℕ) :
    ∀ (l : List ℕ) (b : ℤ), b ≤ computeGo W H n l b := by
  intro l
  induction l with
  | nil => intro b; exact le_refl b
  | cons c rest ih =>
    intro b
    simp only [computeGo]
    by_cases hbs : b < szCand W H n c
    · rw [if_pos hbs]
      split
      · omega
      · exact le_trans (le_of_lt hbs) (ih _)
    · rw [if_neg hbs]
      split
      · exact le_refl b
      · exact ih b

lemma computeGo_eq_or_mem (W H : ℚ) (n : ℕ) :
    ∀ (l : List ℕ) (b : ℤ), computeGo W H n l b = b ∨
      ∃ c ∈ l, computeGo W H n l b = szCand W H n c := by
  intro l
  induction l with
  | nil => intro b; left; rfl
  | cons c rest ih =>
    intro b
    simp only [computeGo]
    by_cases hbs : b < szCand W H n c
    · rw [if_pos hbs]
      split
      · right
        exact ⟨c, List.mem_cons_self c rest, rfl⟩
      · rcases ih (szCand W H n c) with hEq | ⟨c', hc', hEq⟩
        · right
          exact ⟨c, List.mem_cons_self c rest, hEq⟩
        · right
          exact ⟨c', List.mem_cons_of_mem c hc', hEq⟩
    · rw [if_neg hbs]
      split
      · left
        rfl
      · rcases ih b with hEq | ⟨c', hc', hEq⟩
        · left
          exact hEq
        · right
          exact ⟨c', List.mem_cons_of_mem c hc', hEq⟩

lemma le_szCand_fits {W H : ℚ} {n c : ℕ} (hc : 1 ≤ c) (hn : 1 ≤ n) {s : ℤ}
    (hs : s ≤ szCand W H n c) : fitsGrid n c s W H := by
  have hcQ : (0 : ℚ) < (c : ℚ) := by exact_mod_cast hc
  have hr : 1 ≤ rowsFor n c := by
    unfold rowsFor
    rw [Nat.le_div_iff_mul_le (by omega)]
    omega
  have hrQ : (0 : ℚ) < (rowsFor n c : ℚ) := by exact_mod_cast hr
  have hsz : szCand W H n c =
      ⌊min ((W - ((c : ℚ) - 1) * GRID_GAP) / (c : ℚ))
           ((H - ((rowsFor n c : ℚ) - 1) * GRID_GAP) / (rowsFor n c : ℚ))⌋ := rfl
  have h1 : ((szCand W H n c : ℤ) : ℚ) ≤
      (W - ((c : ℚ) - 1) * GRID_GAP) / (c : ℚ) := by
    rw [hsz]
    exact le_trans (Int.floor_le _) (min_le_left _ _)
  have h2 : ((szCand W H n c : ℤ) : ℚ) ≤
      (H - ((rowsFor n c : ℚ) - 1) * GRID_GAP) / (rowsFor n c : ℚ) := by
    rw [hsz]
    exact le_trans (Int.floor_le _) (min_le_right _ _)
  have hsQ : ((s : ℤ) : ℚ) ≤ ((szCand W H n c : ℤ) : ℚ) := by exact_mod_cast hs
  constructor
  · have h3 : ((s : ℤ) : ℚ) * (c : ℚ) ≤ W - ((c : ℚ) - 1) * GRID_GAP :=
      (le_div_iff₀ hcQ).mp (le_trans hsQ h1)
    nlinarith [h3]
  · have h3 : ((s : ℤ) : ℚ) * (rowsFor n c : ℚ) ≤
        H - ((rowsFor n c : ℚ) - 1) * GRID_GAP :=
      (le_div_iff₀ hrQ).mp (le_trans hsQ h2)
    nlinarith [h3]

/-- **C4 counterexample.**  With `n = 1` and available area `1 × 1` the
sizer still returns the clamped minimum size 12, and no column count can
satisfy the fit inequalities at size 12 in a 1-pixel-wide area: the
claim fails for small `W`, `H`. -/
theorem c4_packing_counterexample : ¬ fitsSome 1 (computeSize 1 1 1) 1 1 := by
  have hcs : computeSize 1 1 1 = 12 := by decide
  rintro ⟨c, hc, hfit⟩
  rw [hcs] at hfit
  rcases hfit with ⟨hW, _⟩
  simp only [GRID_GAP] at hW
  have hcQ : (1 : ℚ) ≤ (c : ℚ) := by exact_mod_cast hc
  push_cast at hW
  nlinarith [hW, hcQ]

/-- **C4 (amended).**  For every cell count `n` from 1 to 100 and every
available `W × H` in which at least one column count fits at the clamped
minimum size 12, the sizer's chosen size admits a column count
satisfying both fit inequalities.  (Amended from the claim: for areas
too small to fit even a 12-pixel cell the sizer still returns the
clamped minimum 12, which fits nothing — see the counterexample.) -/
theorem c4_packing_fit_amended (n : ℕ) (W H : ℚ) (h1 : 1 ≤ n) (h2 : n ≤ 100)
    (hfit : fitsSome n 12 W H) : fitsSome n (computeSize W H n) W H := by
  rcases computeGo_eq_or_mem W H n (List.range' 3 (n - 2)) 12 with hB | ⟨c, hcmem, hB⟩
  · have hcs : computeSize W H n = 12 := by
      unfold computeSize computeBest
      rw [hB]
      rfl
    rw [hcs]
    exact hfit
  · have hc3 : 3 ≤ c := (List.mem_range'_1.mp hcmem).1
    have h12 : (12 : ℤ) ≤ computeBest W H n := computeGo_ge W H n _ 12
    have hle : computeSize W H n ≤ szCand W H n c := by
      unfold computeSize
      unfold computeBest at h12 ⊢
      rw [hB] at h12 ⊢
      have hm : min (szCand W H n c) 56 ≤ szCand W H n c := min_le_left _ _
      omega
    exact ⟨c, by omega, le_szCand_fits (by omega) h1 hle⟩

/-- **C4 witness** at the spec's end-to-end example 4:
`n = 50`, `W = 400`, `H = 200` (a single 10-column grid of 12-pixel
cells fits, so the amended hypothesis holds). -/
theorem c4_packing_fit_amended_witness : fitsSome 50 (computeSize 400 200 50) 400 200 :=
  c4_packing_fit_amended 50 400 200 (by norm_num) (by norm_num)
    ⟨10, by norm_num, by
      constructor
      · show (10 : ℚ) * ((12 : ℤ) : ℚ) + ((10 : ℚ) - 1) * GRID_GAP ≤ 400
        norm_num [GRID_GAP]
      · show ((rowsFor 50 10 : ℕ) : ℚ) * ((12 : ℤ) : ℚ)
            + (((rowsFor 50 10 : ℕ) : ℚ) - 1) * GRID_GAP ≤ 200
        norm_num [GRID_GAP, rowsFor]⟩

/-! ## C9 — year-grid cell count bound -/

/-- **C9.**  For every person with `gridEnd ≥ birthYear`, the sampled
year list of the life-events grid has between 1 and `MAX_SQUARES = 100`
entries, because `step = max(1, ceil(totalYears / 100))`. -/
theorem c9_year_grid_bound (p : PersonData) (h : p.birth_year ≤ gridEnd p) :
    1 ≤ (yearsList p).length ∧ (yearsList p).length ≤ 100 := by
  have hstep1 : (1 : ℤ) ≤ stepOf p := le_max_left 1 _
  have hceil : totalYears p ≤ 100 * ⌈(totalYears p : ℚ) / (MAX_SQUARES : ℚ)⌉ := by
    have h1 : ((totalYears p : ℤ) : ℚ) / (MAX_SQUARES : ℚ) ≤
        (⌈(totalYears p : ℚ) / (MAX_SQUARES : ℚ)⌉ : ℚ) := Int.le_ceil _
    have h100 : (0 : ℚ) < (MAX_SQUARES : ℤ) := by norm_num [MAX_SQUARES]
    have h2 := (div_le_iff₀ h100).mp h1
    have h3 : ((totalYears p : ℤ) : ℚ) ≤
        ((100 * ⌈(totalYears p : ℚ) / (MAX_SQUARES : ℚ)⌉ : ℤ) : ℚ) := by
      push_cast
      calc ((totalYears p : ℤ) : ℚ)
          ≤ (⌈(totalYears p : ℚ) / (MAX_SQUARES : ℚ)⌉ : ℚ) * ((MAX_SQUARES : ℤ) : ℚ) := h2
        _ = 100 * (⌈(totalYears p : ℚ) / (MAX_SQUARES : ℚ)⌉ : ℚ) := by
            norm_num [MAX_SQUARES]; ring
    exact_mod_cast h3
  have hstep2 : totalYears p ≤ 100 * stepOf p := by
    have h4 : ⌈(totalYears p : ℚ) / (MAX_SQUARES : ℚ)⌉ ≤ stepOf p := le_max_right 1 _
    nlinarith
  have hify : gridEnd p - p.birth_year < 100 * stepOf p := by
    have : totalYears p = gridEnd p - p.birth_year + 1 := rfl
    omega
  have hlen : (yearsList p).length =
      (gridEnd p - p.birth_year).toNat / (stepOf p).toNat + 1 := by
    unfold yearsList
    rw [if_neg (by omega), List.length_map, List.length_range]
  have hsD : (((gridEnd p - p.birth_year).toNat : ℕ) : ℤ) = gridEnd p - p.birth_year :=
    Int.toNat_of_nonneg (by omega)
  have hss : (((stepOf p).toNat : ℕ) : ℤ) = stepOf p := Int.toNat_of_nonneg (by omega)
  have hsn : 0 < (stepOf p).toNat := by omega
  have hDn : (gridEnd p - p.birth_year).toNat < 100 * (stepOf p).toNat := by omega
  have hdiv : (gridEnd p - p.birth_year).toNat / (stepOf p).toNat < 100 :=
    (Nat.div_lt_iff_lt_mul hsn).mpr (by omega)
  rw [hlen]
  exact ⟨Nat.succ_le_succ (Nat.zero_le _), Nat.succ_le_of_lt hdiv⟩

/-- **C9 witness**: a person born 1900, died 1980 — `gridEnd` is 2005,
and the grid samples 53 years. -/
theorem c9_year_grid_bound_witness :
    1 ≤ (yearsList ⟨"Ada", 1900, some 1980, "sci", false⟩).length ∧
    (yearsList ⟨"Ada", 1900, some 1980, "sci", false⟩).length ≤ 100 :=
  c9_year_grid_bound ⟨"Ada", 1900, some 1980, "sci", false⟩ (by decide)

/-! ## Remaining witnesses -/

/-- **C1 witness** at the spec's end-to-end example 3: focal person
born 1900, died 1980; contemporary 1850–1920 (arc 0°–90°). -/
theorem c1_arc_angle_bounds_witness :
    0 < ((arcsFor adaP [adaP, bobP]).get ⟨0, by decide⟩).endDeg
          - ((arcsFor adaP [adaP, bobP]).get ⟨0, by decide⟩).startDeg ∧
    ((arcsFor adaP [adaP, bobP]).get ⟨0, by decide⟩).endDeg
          - ((arcsFor adaP [adaP, bobP]).get ⟨0, by decide⟩).startDeg ≤ 360 ∧
    describeArcEnd ((arcsFor adaP [adaP, bobP]).get ⟨0, by decide⟩).startDeg
        ((arcsFor adaP [adaP, bobP]).get ⟨0, by decide⟩).endDeg
      ≤ ((arcsFor adaP [adaP, bobP]).get ⟨0, by decide⟩).startDeg + (359.9 : ℚ) :=
  c1_arc_angle_bounds adaP [adaP, bobP] 0 (by decide)
    (fun dy hdy => by
      have h : (1980 : ℤ) = dy := Option.some.inj hdy
      show (1900 : ℤ) ≤ dy
      omega)

/-- **C3 witness**: two retained contemporaries; the first (index 0)
gets radius `28 + (0/1) * 78 = 28`. -/
theorem c3_radius_assignment_witness :
    MIN_R = 28 ∧ MAX_R = 106 ∧ BASE_R = 67 ∧
    ((arcsFor adaP [adaP, bobP, cleP]).get ⟨0, by decide⟩).r =
      (if (arcsFor adaP [adaP, bobP, cleP]).length = 1 then ((28 : ℚ) + 106) / 2
       else 28 + (((0 : ℕ) : ℚ) / (((arcsFor adaP [adaP, bobP, cleP]).length : ℚ) - 1))
          * (106 - 28)) :=
  c3_radius_assignment adaP [adaP, bobP, cleP] 0 (by decide)

/-- **C8 witness**: the corrupt record `badP` (born 1950, "died" 1900)
never yields an arc, and its bar width is still clamped to ≥ 2. -/
theorem c8_negative_span_safety_witness :
    2 ≤ barW 1890 2030 800 badP ∧
    ((arcsFor adaP [adaP, badP, bobP]).all fun a => a.p != badP) = true ∧
    arcsFor badP [adaP, badP, bobP] = [] :=
  c8_negative_span_safety 1890 2030 800 badP adaP [adaP, badP, bobP] 1900 rfl (by decide)

end TimelineGeneration
